import Mathlib

/-!
Shallow embedding of `jsonargparse/signatures.py` (class `SignatureArguments`):
adding parser arguments derived from the signatures of classes, methods and
functions.  Pure Python introspection results (parameter lists, docstrings,
variadic flags) are represented by explicit data; the collaborating parser's
`add_argument` side effects are represented by an ordered list of
`AddedArg` registration events.
-/

/-- Python parameter kinds as distinguished by `inspect._ParameterKind`. -/
inductive ParamKind where
  | positionalOnly
  | positionalOrKeyword
  | varPositional
  | varKeyword
  | keywordOnly
  deriving DecidableEq

/-- Type annotations as the module inspects them. `empty` is `inspect._empty`
(no annotation). `subclassOfStr/Int/Float` stand for strict subtypes of the
simple types (`_issubclass(annotation, (str, int, float))`), `enum` for
subclasses of `Enum`, `optional t` for `Optional[t]`, `noneType` for
`type(None)`, and `other` for any remaining type, carrying whether the
external schema-validating action accepts it. -/
inductive Ann where
  | empty
  | str
  | int
  | float
  | bool
  | subclassOfStr (n : String)
  | subclassOfInt (n : String)
  | subclassOfFloat (n : String)
  | enum (n : String)
  | optional (t : Ann)
  | noneType
  | other (n : String) (schemaOk : Bool)
  deriving DecidableEq

/-- Python runtime values as far as the module looks at them: default values.
`factory v` models a dataclass `_HAS_DEFAULT_FACTORY` marker whose
`default_factory()` call produces `v` (spec: a default may be a concrete value
or a zero-argument producer, evaluated once at registration time).
`inst t` is an instance of an arbitrary type `t`. -/
inductive PyVal where
  | none
  | int (n : Int)
  | str (s : String)
  | bool (b : Bool)
  | float (repr : Int)
  | inst (t : Ann)
  | factory (v : PyVal)
  deriving DecidableEq

/-- `type(default)`: the runtime type of a value, used to infer the effective
annotation of an unannotated optional parameter. -/
def typeOf : PyVal → Ann
  | PyVal.none => Ann.noneType
  | PyVal.int _ => Ann.int
  | PyVal.str _ => Ann.str
  | PyVal.bool _ => Ann.bool
  | PyVal.float _ => Ann.float
  | PyVal.inst t => t
  | PyVal.factory _ => Ann.other "_HAS_DEFAULT_FACTORY_CLASS" false

/-- Modelled from the spec: `is_optional(annotation, object)` (from the
module's `typing` collaborator, not under `src/`) detects an
optional/nullable annotation form, i.e. `Optional[X]`. -/
def isOptionalAnn : Ann → Bool
  | Ann.optional _ => true
  | _ => false

/-- The simple-type test of the dispatch: annotation is exactly one of
str, int, float, bool, or `_issubclass(annotation, (str, int, float))`.
`_issubclass` (not under `src/`) is modelled from the spec: a narrowing
subtype of text, integer or real-number qualifies; non-class forms do not. -/
def isSimpleType : Ann → Bool
  | Ann.str => true
  | Ann.int => true
  | Ann.float => true
  | Ann.bool => true
  | Ann.subclassOfStr _ => true
  | Ann.subclassOfInt _ => true
  | Ann.subclassOfFloat _ => true
  | _ => false

/-- `_issubclass(annotation, Enum)`: the annotation is an enumeration type. -/
def isEnumAnn : Ann → Bool
  | Ann.enum _ => true
  | _ => false

/-- Modelled from the spec: construction of the external schema-validating
action `ActionJsonSchema(annotation=...)` (not under `src/`) raises
`ValueError` exactly when the given type cannot be schema-validated; the
missing annotation `inspect._empty` is never a valid type. -/
def schemaOkAnn : Ann → Bool
  | Ann.other _ ok => ok
  | Ann.empty => false
  | _ => true

/-- One parameter of an inspected signature: name, kind, annotation
(`Ann.empty` when absent) and default (`none` encodes `inspect._empty`,
i.e. a required parameter). -/
structure Param where
  name : String
  kind : ParamKind
  ann : Ann
  default : Option PyVal
  deriving DecidableEq

/-- One docstring returned by `docs_func` for a chain element, after the
best-effort parse: either a parse failure (`ValueError`, logged and skipped)
or a parsed docstring with its truthy short description (if any) and its
parameter descriptions. -/
inductive DocItem where
  | parseFail
  | parsed (shortDescription : Option String) (params : List (String × String))
  deriving DecidableEq

/-- One element of the source callable chain: its `__name__`, the parameter
list of `inspect.signature(sign_func(obj))`, and the parsed docstrings
produced by `docs_func(obj)`. -/
structure ChainElem where
  name : String
  params : List Param
  docs : List DocItem
  deriving DecidableEq

/-- `any(p._kind == kinds.VAR_POSITIONAL for p in params)`. -/
def hasVarPositional (params : List Param) : Bool :=
  params.any (fun p => p.kind == ParamKind.varPositional)

/-- `any(p._kind == kinds.VAR_KEYWORD for p in params)`. -/
def hasVarKeyword (params : List Param) : Bool :=
  params.any (fun p => p.kind == ParamKind.varKeyword)

/-- The propagation loop of `_add_signature_arguments` over `objects[1:]`:
given the flags accumulated from the previous elements, pair each element
with the flags in force at its position, narrowing the flags by the element's
own variadic parameters for the next position, and truncate the chain as soon
as both flags are false. -/
def propagateAux (hasArgs hasKwargs : Bool) : List ChainElem → List (ChainElem × Bool × Bool)
  | [] => []
  | o :: rest =>
    if hasArgs || hasKwargs then
      (o, hasArgs, hasKwargs) ::
        propagateAux (hasArgs && hasVarPositional o.params) (hasKwargs && hasVarKeyword o.params) rest
    else []

/-- The whole propagation computation: `add_types` starts at `(True, True)`
for `objects[0]` and the flags for deeper positions are seeded from the
first element's own variadic parameters.  The result is
`zip(objects, add_types)` after truncation. -/
def propagate (first : ChainElem) (rest : List ChainElem) : List (ChainElem × Bool × Bool) :=
  (first, true, true) ::
    propagateAux (hasVarPositional first.params) (hasVarKeyword first.params) rest

/-- Insert the parameter descriptions of one parsed docstring into the
accumulated mapping: the first description seen for a name wins
(`if param.arg_name not in doc_params`). -/
def addDocParams (acc : List (String × String)) : List (String × String) → List (String × String)
  | [] => acc
  | kv :: rest =>
    addDocParams (if acc.any (fun e => e.1 == kv.1) then acc else acc ++ [kv]) rest

/-- Fold one docstring of the chain into the accumulated
(short description, parameter descriptions) pair.  A parse failure is logged
at debug level and skipped; a truthy short description is kept only when none
was found yet. -/
def gatherDoc (acc : Option String × List (String × String)) : DocItem → Option String × List (String × String)
  | DocItem.parseFail => acc
  | DocItem.parsed sd ps =>
    ((match acc.1 with
      | some s => some s
      | Option.none => sd), addDocParams acc.2 ps)

/-- `_gather_docstrings`: when docstring parsing support is unavailable the
result is unconditionally `(None, empty)`; otherwise the docstrings of every
chain element are folded in chain order. -/
def gather_docstrings (support : Bool) (objects : List ChainElem) : Option String × List (String × String) :=
  if support then
    objects.foldl (fun acc o => o.docs.foldl gatherDoc acc) (Option.none, [])
  else (Option.none, [])

/-- The option actions that registrations can carry, each provided by the
collaborating parser framework (modelled from the spec, the action classes
are not under `src/`): the enum-backed choice action carrying its enum type,
the schema-validating action carrying its annotation and `enable_path` flag,
the config-subtree-loading action, and the class-path help action carrying
its base class name. -/
inductive ArgAction where
  | actionEnum (e : Ann)
  | actionJsonSchema (a : Ann) (enablePath : Bool)
  | actionConfigLoad
  | actionHelpClassPath (baseclassName : String)
  deriving DecidableEq

/-- One `add_argument` registration event on the parser/group: destination
key, option string, and the keyword configuration passed along
(`type`, `action`, `default`, `required`, `help`, `metavar`, `enable_path`). -/
structure AddedArg where
  dest : String
  optStr : String
  typeTag : Option Ann := Option.none
  action : Option ArgAction := Option.none
  default : Option PyVal := Option.none
  required : Bool := false
  helpText : Option String := Option.none
  metavar : Option String := Option.none
  enablePath : Bool := false
  deriving DecidableEq

/-- An argument group created by `add_argument_group(doc_group, name=name)`. -/
structure ArgGroup where
  title : String
  name : String
  deriving DecidableEq

/-- `_create_group_if_requested`: when `as_group` is set, create a group
titled by the gathered short description (falling back to the string form of
the object, modelled by its name) and named by the nested key when given,
else the object's name; when additionally `config_load` is set and a nested
key was given, register a config-subtree-loading option for the nested key.
Without `as_group` the parser itself is the target and nothing is added. -/
def create_group_if_requested (objName : String) (nestedKey : Option String) (asGroup : Bool)
    (docGroup : Option String) (configLoad : Bool) : Option ArgGroup × List AddedArg :=
  if asGroup then
    (some { title := (match docGroup with
                      | some s => s
                      | Option.none => objName),
            name := (match nestedKey with
                     | some k => k
                     | Option.none => objName) },
     match nestedKey with
     | some k =>
       if configLoad then
         [{ dest := k, optStr := "--" ++ k, action := some ArgAction.actionConfigLoad }]
       else []
     | Option.none => [])
  else (Option.none, [])

/-- The errors (`ValueError`s) raised by the module. -/
inductive SigError where
  | notAClass
  | notAMethod
  | notCallable
  | requiredWithoutType (objName paramName : String)
  deriving DecidableEq

/-- Configuration shared by the whole parameter walk of one
`_add_signature_arguments` call. -/
structure DeriveCfg where
  nestedKey : Option String
  asPositional : Bool
  skip : List String
  docParams : List (String × String)
  skipFirst : Bool
  deriving DecidableEq

/-- State threaded through the parameter walk: the `added_args` destination
set (in insertion order) and the registration events so far. -/
structure DeriveState where
  added : List String
  events : List AddedArg
  deriving DecidableEq

/-- Outcome of the exclusion-rule chain for one parameter, mirroring the
`if`/`elif` ladder of `_add_signature_arguments`: `silentSkip` is the first
`if` (variadic kind, skipped implicit first parameter, or untyped optional
defaulting to None), the two propagation skips and the skip-list skip are
debug-logged, `proceed` reaches registration. -/
inductive ParamDecision where
  | silentSkip
  | skipNoArgsProp
  | skipNoKwargsProp
  | skipListed
  | proceed
  deriving DecidableEq

/-- The exclusion-rule ladder for one parameter at index `num` of its
chain element, under propagation flags `(addArgs, addKwargs)`. -/
def paramDecision (skipFirst addArgs addKwargs : Bool) (skip : List String) (num : Nat)
    (p : Param) : ParamDecision :=
  let isRequired := p.default.isNone
  if (p.kind == ParamKind.varPositional || p.kind == ParamKind.varKeyword)
     || (isRequired && skipFirst && num == 0)
     || (p.ann == Ann.empty && !isRequired && p.default == some PyVal.none) then
    ParamDecision.silentSkip
  else if isRequired && !addArgs then
    ParamDecision.skipNoArgsProp
  else if !isRequired && !addKwargs then
    ParamDecision.skipNoKwargsProp
  else if p.name ∈ skip then
    ParamDecision.skipListed
  else
    ParamDecision.proceed

/-- Resolution of a dataclass default-factory marker:
`default = obj.__dataclass_fields__[name].default_factory()`. -/
def resolveFactory : Option PyVal → Option PyVal
  | some (PyVal.factory v) => some v
  | d => d

/-- The effective annotation of a surviving parameter: after factory
resolution, an absent annotation of an optional parameter is inferred as
`type(default)`, and an optional parameter defaulting to None with a
non-optional annotation is wrapped as `Optional[annotation]`. -/
def effectiveAnn (p : Param) : Ann :=
  let isRequired := p.default.isNone
  let dflt := resolveFactory p.default
  let a := if p.ann == Ann.empty && !isRequired then
             (match dflt with
              | some v => typeOf v
              | Option.none => p.ann)
           else p.ann
  if !isRequired && dflt == some PyVal.none && !isOptionalAnn a then Ann.optional a else a

/-- `doc_params.get(name)`. -/
def lookupDoc (m : List (String × String)) (name : String) : Option String :=
  (m.find? (fun kv => kv.1 == name)).map Prod.snd

/-- The destination key: optional nested-key dot prefix plus parameter name. -/
def paramDest (nestedKey : Option String) (name : String) : String :=
  (match nestedKey with
   | some k => k ++ "."
   | Option.none => "") ++ name

/-- The `kwargs['type']` entry of the dispatch: the effective annotation
itself when it is a simple type, absent otherwise. -/
def dispatchTypeTag (a : Ann) : Option Ann :=
  if isSimpleType a then some a else Option.none

/-- The `kwargs['action']` entry of the dispatch, tried after the simple-type
test: the enum-backed choice action for an enumeration type, else the
schema-validating action (with `enable_path=False`) when its construction
succeeds, else nothing (the `ValueError` is caught and debug-logged). -/
def dispatchAction (a : Ann) : Option ArgAction :=
  if isSimpleType a then Option.none
  else if isEnumAnn a then some (ArgAction.actionEnum a)
  else if schemaOkAnn a then some (ArgAction.actionJsonSchema a false)
  else Option.none

/-- The registration event built for a surviving parameter: destination key,
option string (positional form only for a required parameter under
`as_positional`), dispatch results, default (only when optional, after
factory resolution), `required=True` only for a required flag-style option,
and the docstring help text. -/
def buildEvent (cfg : DeriveCfg) (p : Param) : AddedArg :=
  { dest := paramDest cfg.nestedKey p.name,
    optStr := if p.default.isNone && cfg.asPositional then paramDest cfg.nestedKey p.name
              else "--" ++ paramDest cfg.nestedKey p.name,
    typeTag := dispatchTypeTag (effectiveAnn p),
    action := dispatchAction (effectiveAnn p),
    default := if p.default.isNone then Option.none else resolveFactory p.default,
    required := p.default.isNone && !cfg.asPositional,
    helpText := lookupDoc cfg.docParams p.name }

/-- Processing of a single parameter of chain element `objName` under
propagation flags `(addArgs, addKwargs)`: run the exclusion ladder, dispatch
on the effective annotation, and either register (unless the destination key
was already added this call), skip, or raise for a required parameter
without any valid type. -/
def processParam (cfg : DeriveCfg) (objName : String) (addArgs addKwargs : Bool) (num : Nat)
    (p : Param) (st : DeriveState) : Except SigError DeriveState :=
  match paramDecision cfg.skipFirst addArgs addKwargs cfg.skip num p with
  | ParamDecision.proceed =>
    if (dispatchTypeTag (effectiveAnn p)).isSome || (dispatchAction (effectiveAnn p)).isSome then
      if paramDest cfg.nestedKey p.name ∈ st.added then
        Except.ok st
      else
        Except.ok { added := st.added ++ [paramDest cfg.nestedKey p.name],
                    events := st.events ++ [buildEvent cfg p] }
    else if p.default.isNone then
      Except.error (SigError.requiredWithoutType objName p.name)
    else
      Except.ok st
  | _ => Except.ok st

/-- The enumerated walk over one chain element's parameters; on the first
error the walk stops, keeping the registrations made before it. -/
def processParams (cfg : DeriveCfg) (objName : String) (addArgs addKwargs : Bool) :
    Nat → List Param → DeriveState → DeriveState × Option SigError
  | _, [], st => (st, Option.none)
  | num, p :: ps, st =>
    match processParam cfg objName addArgs addKwargs num p st with
    | Except.ok st' => processParams cfg objName addArgs addKwargs (num + 1) ps st'
    | Except.error e => (st, some e)

/-- The walk over the zipped, truncated chain
(`for obj, (add_args, add_kwargs) in zip(objects, add_types)`). -/
def runChain (cfg : DeriveCfg) : List (ChainElem × Bool × Bool) → DeriveState → DeriveState × Option SigError
  | [], st => (st, Option.none)
  | entry :: chain, st =>
    match processParams cfg entry.1.name entry.2.1 entry.2.2 0 entry.1.params st with
    | (st', Option.none) => runChain cfg chain st'
    | (st', some e) => (st', some e)

/-- The docstrings gathered for one `_add_signature_arguments` call, over the
truncated chain. -/
def sigDocs (first : ChainElem) (rest : List ChainElem) (docSupport : Bool) :
    Option String × List (String × String) :=
  gather_docstrings docSupport ((propagate first rest).map Prod.fst)

/-- The parameter-walk part of `_add_signature_arguments`: final state and
first error, starting from an empty `added_args` set. -/
def sigState (first : ChainElem) (rest : List ChainElem) (nestedKey : Option String)
    (asPositional : Bool) (skip : List String) (docSupport : Bool) (skipFirst : Bool) :
    DeriveState × Option SigError :=
  runChain { nestedKey := nestedKey, asPositional := asPositional, skip := skip,
             docParams := (sigDocs first rest docSupport).2, skipFirst := skipFirst }
    (propagate first rest) { added := [], events := [] }

/-- `_add_signature_arguments`: propagation and truncation, docstring
gathering, optional group creation (whose config-load option precedes all
parameter registrations), then the parameter walk.  Returns every
registration event of the call in order, and either the size of the
`added_args` set or the first error raised; events registered before an
error remain in the result (no rollback). -/
def add_signature_arguments (first : ChainElem) (rest : List ChainElem) (nestedKey : Option String)
    (asGroup asPositional : Bool) (skip : List String) (docSupport : Bool) (skipFirst : Bool) :
    List AddedArg × Except SigError Nat :=
  let groupEvents :=
    (create_group_if_requested first.name nestedKey asGroup (sigDocs first rest docSupport).1 true).2
  match sigState first rest nestedKey asPositional skip docSupport skipFirst with
  | (st, Option.none) => (groupEvents ++ st.events, Except.ok st.added.length)
  | (st, some e) => (groupEvents ++ st.events, Except.error e)

/-- A class member as `getattr` and `inspect.getattr_static` see it:
whether it is callable, whether it is a static method, and its signature
and docstrings as a chain element. -/
structure Method where
  isCallable : Bool
  isStatic : Bool
  elem : ChainElem
  deriving DecidableEq

/-- A Python class as the module inspects it: its name, its own position in
the MRO (`inspect.getmro` returns the class itself first), its ancestors'
positions in MRO order, its members (for `add_method_arguments`), and the
class itself viewed as a type annotation (for `add_subclass_arguments`). -/
structure PyClass where
  name : String
  selfElem : ChainElem
  ancestors : List ChainElem
  members : List (String × Method)
  ann : Ann
  deriving DecidableEq

/-- An argument that should be a class: either a class object or not
(`inspect.isclass` fails). -/
inductive ClassInput where
  | cls (c : PyClass)
  | nonClass (tag : String)
  deriving DecidableEq

/-- An argument that should be a callable: either callable or not. -/
inductive FuncInput where
  | callable (f : ChainElem)
  | notCallable (tag : String)
  deriving DecidableEq

/-- `getattr`/`hasattr` lookup of a member. -/
def lookupMember (c : PyClass) (m : String) : Option Method :=
  (c.members.find? (fun kv => kv.1 == m)).map Prod.snd

/-- `add_class_arguments`: requires a class, then derives from the full MRO
chain with `skip_first=True`. -/
def add_class_arguments (theclass : ClassInput) (nestedKey : Option String)
    (asGroup asPositional : Bool) (skip : List String) (docSupport : Bool) :
    List AddedArg × Except SigError Nat :=
  match theclass with
  | ClassInput.nonClass _ => ([], Except.error SigError.notAClass)
  | ClassInput.cls c =>
    add_signature_arguments c.selfElem c.ancestors nestedKey asGroup asPositional skip docSupport true

/-- `add_method_arguments`: requires a class and the name of a callable
member, then derives from the single resolved method, skipping the first
parameter unless the member is a static method. -/
def add_method_arguments (theclass : ClassInput) (themethod : String) (nestedKey : Option String)
    (asGroup asPositional : Bool) (skip : List String) (docSupport : Bool) :
    List AddedArg × Except SigError Nat :=
  match theclass with
  | ClassInput.nonClass _ => ([], Except.error SigError.notAClass)
  | ClassInput.cls c =>
    match lookupMember c themethod with
    | Option.none => ([], Except.error SigError.notAMethod)
    | some meth =>
      if meth.isCallable then
        add_signature_arguments meth.elem [] nestedKey asGroup asPositional skip docSupport
          (!meth.isStatic)
      else ([], Except.error SigError.notAMethod)

/-- `add_function_arguments`: requires a callable, then derives from the
singleton chain with no skipped first parameter. -/
def add_function_arguments (function : FuncInput) (nestedKey : Option String)
    (asGroup asPositional : Bool) (skip : List String) (docSupport : Bool) :
    List AddedArg × Except SigError Nat :=
  match function with
  | FuncInput.notCallable _ => ([], Except.error SigError.notCallable)
  | FuncInput.callable f =>
    add_signature_arguments f [] nestedKey asGroup asPositional skip docSupport false

/-- The `help % ...` substitution of `add_subclass_arguments`: replace the
baseclass-name placeholder by the base class's name. -/
def substBaseclassName (helpStr name : String) : String :=
  helpStr.replace "%(baseclass_name)s" name

/-- `add_subclass_arguments`: requires a class; gathers the base class's own
docstrings, creates the group with `config_load=False` (so no config-load
option is added even though a nested key is given), then registers the
help-probe option `--<nested_key>.help` and the principal option
`--<nested_key>` typed by the base class with `enable_path=True`. -/
def add_subclass_arguments (baseclass : ClassInput) (nestedKey : String) (asGroup : Bool)
    (metavar helpStr : String) (docSupport : Bool) : Except SigError (List AddedArg) :=
  match baseclass with
  | ClassInput.nonClass _ => Except.error SigError.notAClass
  | ClassInput.cls c =>
    let docGroup := (gather_docstrings docSupport [c.selfElem]).1
    let groupEvents := (create_group_if_requested c.name (some nestedKey) asGroup docGroup false).2
    Except.ok (groupEvents ++
      [{ dest := nestedKey ++ ".help",
         optStr := "--" ++ nestedKey ++ ".help",
         action := some (ArgAction.actionHelpClassPath c.name) },
       { dest := nestedKey,
         optStr := "--" ++ nestedKey,
         typeTag := some c.ann,
         helpText := some (substBaseclassName helpStr c.name),
         metavar := some metavar,
         enablePath := true }])

/-! ### Helper lemmas -/

theorem bool_and_left {a b : Bool} (h : (a && b) = true) : a = true := by
  cases a
  · simp at h
  · rfl

theorem propagateAux_flags_le : ∀ (rest : List ChainElem) (ha hk : Bool),
    ∀ e ∈ propagateAux ha hk rest, (e.2.1 = true → ha = true) ∧ (e.2.2 = true → hk = true)
  | [], _, _ => by simp [propagateAux]
  | o :: rest, ha, hk => by
    simp only [propagateAux]
    split
    · intro e he
      rcases List.mem_cons.mp he with h | h
      · subst h
        exact ⟨fun hx => hx, fun hx => hx⟩
      · have ih := propagateAux_flags_le rest (ha && hasVarPositional o.params)
          (hk && hasVarKeyword o.params) e h
        exact ⟨fun hx => bool_and_left (ih.1 hx), fun hx => bool_and_left (ih.2 hx)⟩
    · intro e he
      simp at he

theorem propagateAux_pairwise : ∀ (rest : List ChainElem) (ha hk : Bool),
    List.Pairwise (fun a b : ChainElem × Bool × Bool =>
      (b.2.1 = true → a.2.1 = true) ∧ (b.2.2 = true → a.2.2 = true)) (propagateAux ha hk rest)
  | [], _, _ => by simp [propagateAux]
  | o :: rest, ha, hk => by
    simp only [propagateAux]
    split
    · refine List.Pairwise.cons ?_ (propagateAux_pairwise rest _ _)
      intro e he
      have h := propagateAux_flags_le rest _ _ e he
      exact ⟨fun hx => bool_and_left (h.1 hx), fun hx => bool_and_left (h.2 hx)⟩
    · exact List.Pairwise.nil

theorem propagateAux_map_fst_take : ∀ (rest : List ChainElem) (ha hk : Bool),
    (propagateAux ha hk rest).map Prod.fst = rest.take (propagateAux ha hk rest).length
  | [], _, _ => by simp [propagateAux]
  | o :: rest, ha, hk => by
    simp only [propagateAux]
    split
    · simp [propagateAux_map_fst_take rest]
    · simp

theorem propagateAux_truncated_append : ∀ (rest : List ChainElem) (ha hk : Bool)
    (more : List ChainElem), (propagateAux ha hk rest).length < rest.length →
    propagateAux ha hk (rest ++ more) = propagateAux ha hk rest
  | [], ha, hk, more => by
    intro h
    simp [propagateAux] at h
  | o :: rest, ha, hk, more => by
    intro h
    by_cases hc : (ha || hk) = true
    · simp only [propagateAux, hc, if_pos, List.cons_append, List.length_cons] at h ⊢
      have h' : (propagateAux (ha && hasVarPositional o.params) (hk && hasVarKeyword o.params)
          rest).length < rest.length := by omega
      exact congrArg _ (propagateAux_truncated_append rest _ _ more h')
    · simp only [List.cons_append, propagateAux, hc, if_neg, Bool.false_eq_true,
        not_false_eq_true, if_false]

/-- The dedup invariant maintained by the parameter walk: the `added_args`
set is exactly the list of destination keys of the registration events, and
it has no duplicates. -/
def stateInv (st : DeriveState) : Prop :=
  st.added = st.events.map AddedArg.dest ∧ st.added.Nodup

theorem processParam_ok_cases (cfg : DeriveCfg) (objName : String) (addArgs addKwargs : Bool)
    (num : Nat) (p : Param) (st st' : DeriveState)
    (h : processParam cfg objName addArgs addKwargs num p st = Except.ok st') :
    st' = st ∨ (paramDest cfg.nestedKey p.name ∉ st.added ∧
      st' = { added := st.added ++ [paramDest cfg.nestedKey p.name],
              events := st.events ++ [buildEvent cfg p] }) := by
  unfold processParam at h
  split at h
  · split at h
    · split at h
      · exact Or.inl (Except.ok.inj h).symm
      · exact Or.inr ⟨by assumption, (Except.ok.inj h).symm⟩
    · split at h
      · exact absurd h (by simp)
      · exact Or.inl (Except.ok.inj h).symm
  · exact Or.inl (Except.ok.inj h).symm

theorem processParam_inv (cfg : DeriveCfg) (objName : String) (addArgs addKwargs : Bool)
    (num : Nat) (p : Param) (st st' : DeriveState)
    (h : processParam cfg objName addArgs addKwargs num p st = Except.ok st')
    (hinv : stateInv st) : stateInv st' := by
  rcases processParam_ok_cases cfg objName addArgs addKwargs num p st st' h with h' | ⟨hmem, h'⟩
  · exact h' ▸ hinv
  · subst h'
    constructor
    · simp only [List.map_append, List.map_cons, List.map_nil]
      rw [hinv.1]
      rfl
    · rw [List.nodup_append]
      refine ⟨hinv.2, List.nodup_singleton _, ?_⟩
      intro a ha hb
      simp only [List.mem_singleton] at hb
      subst hb
      exact hmem ha

theorem processParams_inv (cfg : DeriveCfg) (objName : String) (addArgs addKwargs : Bool) :
    ∀ (ps : List Param) (num : Nat) (st : DeriveState), stateInv st →
      stateInv (processParams cfg objName addArgs addKwargs num ps st).1
  | [], _, st, hinv => hinv
  | p :: ps, num, st, hinv => by
    simp only [processParams]
    split
    · rename_i st' heq
      exact processParams_inv cfg objName addArgs addKwargs ps (num + 1) st'
        (processParam_inv cfg objName addArgs addKwargs num p st st' heq hinv)
    · exact hinv

theorem runChain_inv (cfg : DeriveCfg) :
    ∀ (chain : List (ChainElem × Bool × Bool)) (st : DeriveState), stateInv st →
      stateInv (runChain cfg chain st).1
  | [], st, hinv => hinv
  | entry :: chain, st, hinv => by
    simp only [runChain]
    split
    · rename_i st' heq
      have h1 : stateInv (processParams cfg entry.1.name entry.2.1 entry.2.2 0 entry.1.params st).1 :=
        processParams_inv cfg entry.1.name entry.2.1 entry.2.2 entry.1.params 0 st hinv
      rw [heq] at h1
      exact runChain_inv cfg chain st' h1
    · rename_i st' e heq
      have h1 : stateInv (processParams cfg entry.1.name entry.2.1 entry.2.2 0 entry.1.params st).1 :=
        processParams_inv cfg entry.1.name entry.2.1 entry.2.2 entry.1.params 0 st hinv
      rw [heq] at h1
      exact h1

theorem sigState_inv (first : ChainElem) (rest : List ChainElem) (nestedKey : Option String)
    (asPositional : Bool) (skip : List String) (docSupport : Bool) (skipFirst : Bool) :
    stateInv (sigState first rest nestedKey asPositional skip docSupport skipFirst).1 :=
  runChain_inv _ _ _ ⟨rfl, List.nodup_nil⟩

theorem effectiveAnn_required (p : Param) (h : p.default = Option.none) :
    effectiveAnn p = p.ann := by
  simp [effectiveAnn, resolveFactory, h]

/-! ### Claim theorems -/

/-- C5: along any callable chain the per-position propagation pair is
monotonically narrowing (once a flag is false it stays false for every deeper
position), the processed chain is an initial segment of the input chain, and
once both flags become false the chain is truncated there: appending further
ancestors beyond the truncation point changes neither the propagation result
nor the whole derivation, so deeper elements are never inspected and
contribute no option. -/
theorem claim_C5 (first : ChainElem) (rest : List ChainElem) :
    List.Pairwise (fun a b : ChainElem × Bool × Bool =>
        (b.2.1 = true → a.2.1 = true) ∧ (b.2.2 = true → a.2.2 = true)) (propagate first rest)
    ∧ (propagate first rest).map Prod.fst = (first :: rest).take (propagate first rest).length
    ∧ ∀ more : List ChainElem, (propagate first rest).length < (first :: rest).length →
        propagate first (rest ++ more) = propagate first rest
        ∧ ∀ (nestedKey : Option String) (asGroup asPositional : Bool) (skip : List String)
            (docSupport skipFirst : Bool),
            add_signature_arguments first (rest ++ more) nestedKey asGroup asPositional skip
                docSupport skipFirst
              = add_signature_arguments first rest nestedKey asGroup asPositional skip
                  docSupport skipFirst := by
  refine ⟨?_, ?_, ?_⟩
  · refine List.Pairwise.cons ?_ (propagateAux_pairwise rest _ _)
    intro e _
    exact ⟨fun _ => rfl, fun _ => rfl⟩
  · simp only [propagate, List.map_cons, List.length_cons, List.take_succ_cons]
    rw [propagateAux_map_fst_take]
  · intro more hlt
    have h' : (propagateAux (hasVarPositional first.params) (hasVarKeyword first.params)
        rest).length < rest.length := by
      simp only [propagate, List.length_cons] at hlt
      omega
    have hp : propagate first (rest ++ more) = propagate first rest := by
      simp only [propagate]
      exact congrArg _ (propagateAux_truncated_append rest _ _ more h')
    refine ⟨hp, ?_⟩
    intro nk g pos skip ds sf
    simp only [add_signature_arguments, sigState, sigDocs, hp]

theorem claim_C5_witness :
    (propagate { name := "A", params := [], docs := [] }
        [{ name := "B", params := [], docs := [] }]).length
      < (({ name := "A", params := [], docs := [] } : ChainElem)
          :: [{ name := "B", params := [], docs := [] }]).length
    ∧ propagate { name := "A", params := [], docs := [] }
        ([{ name := "B", params := [], docs := [] }] ++ [{ name := "C", params := [], docs := [] }])
      = propagate { name := "A", params := [], docs := [] }
          [{ name := "B", params := [], docs := [] }] :=
  ⟨by decide,
   ((claim_C5 { name := "A", params := [], docs := [] }
       [{ name := "B", params := [], docs := [] }]).2.2
     [{ name := "C", params := [], docs := [] }] (by decide)).1⟩

/-- C10: the first (most-derived) chain element always carries propagation
state (true, true), and under flags (true, true) the exclusion ladder can
never exclude a parameter for a propagation reason: the decision is always
the silent skip, the skip-list skip, or proceeding to registration. -/
theorem claim_C10 (first : ChainElem) (rest : List ChainElem) :
    (propagate first rest).head? = some (first, true, true)
    ∧ ∀ (skipFirst : Bool) (skip : List String) (num : Nat) (p : Param),
        paramDecision skipFirst true true skip num p = ParamDecision.silentSkip
        ∨ paramDecision skipFirst true true skip num p = ParamDecision.skipListed
        ∨ paramDecision skipFirst true true skip num p = ParamDecision.proceed := by
  refine ⟨rfl, ?_⟩
  intro sf skip num p
  simp only [paramDecision]
  split
  · exact Or.inl rfl
  · split
    · rename_i h2
      simp at h2
    · split
      · rename_i h3
        simp at h3
      · split
        · exact Or.inr (Or.inl rfl)
        · exact Or.inr (Or.inr rfl)

/-- C1 (amended): for a chain whose most-derived element has no variadic
positional parameter, every deeper position has the accepts-extra-positional
flag false, and a required, non-variadic, non-skipped-first parameter at such
a position is excluded from registration with a debug-logged propagation skip
— the derivation does not fail on its account and registers nothing for it. -/
theorem claim_C1 (first : ChainElem) (rest : List ChainElem)
    (h : hasVarPositional first.params = false) :
    (∀ e ∈ (propagate first rest).tail, e.2.1 = false)
    ∧ ∀ (cfg : DeriveCfg) (objName : String) (addKwargs : Bool) (num : Nat) (p : Param)
        (st : DeriveState),
        p.default = Option.none →
        (p.kind == ParamKind.varPositional || p.kind == ParamKind.varKeyword) = false →
        (cfg.skipFirst && (num == 0)) = false →
        paramDecision cfg.skipFirst false addKwargs cfg.skip num p = ParamDecision.skipNoArgsProp
        ∧ processParam cfg objName false addKwargs num p st = Except.ok st := by
  constructor
  · intro e he
    simp only [propagate, List.tail_cons] at he
    have hf := (propagateAux_flags_le rest _ _ e he).1
    rw [h] at hf
    cases hval : e.2.1
    · rfl
    · exact (hf hval).symm
  · intro cfg objName ak num p st hreq hkind hsf
    have hdec : paramDecision cfg.skipFirst false ak cfg.skip num p
        = ParamDecision.skipNoArgsProp := by
      simp [paramDecision, hreq, hkind, hsf]
    refine ⟨hdec, ?_⟩
    simp only [processParam, hdec]

/-- C1 (counterexample to the claim as stated): a chain whose most-derived
callable `Sub` has `**kwargs` but no `*args` and whose ancestor `Base`
declares a required, typed parameter `q` not excluded by any earlier rule;
the claim predicts the derivation call fails with an invalid-configuration
error, but the call succeeds with no option registered and returns 0. -/
theorem claim_C1_counterexample :
    add_signature_arguments
      { name := "Sub",
        params := [{ name := "kwargs", kind := ParamKind.varKeyword, ann := Ann.empty,
                     default := Option.none }], docs := [] }
      [{ name := "Base",
         params := [{ name := "q", kind := ParamKind.positionalOrKeyword, ann := Ann.int,
                      default := Option.none }], docs := [] }]
      Option.none false false [] false false
      = ([], Except.ok 0) := by rfl

theorem claim_C1_witness :
    paramDecision false false true [] 1
        { name := "q", kind := ParamKind.positionalOrKeyword, ann := Ann.int,
          default := Option.none }
      = ParamDecision.skipNoArgsProp
    ∧ processParam
        { nestedKey := Option.none, asPositional := false, skip := [], docParams := [],
          skipFirst := false } "Base" false true 1
        { name := "q", kind := ParamKind.positionalOrKeyword, ann := Ann.int,
          default := Option.none }
        { added := [], events := [] }
      = Except.ok { added := [], events := [] } :=
  (claim_C1
      { name := "Sub",
        params := [{ name := "kwargs", kind := ParamKind.varKeyword, ann := Ann.empty,
                     default := Option.none }], docs := [] }
      [{ name := "Base",
         params := [{ name := "q", kind := ParamKind.positionalOrKeyword, ann := Ann.int,
                      default := Option.none }], docs := [] }]
      (by decide)).2
    { nestedKey := Option.none, asPositional := false, skip := [], docParams := [],
      skipFirst := false } "Base" true 1
    { name := "q", kind := ParamKind.positionalOrKeyword, ann := Ann.int,
      default := Option.none }
    { added := [], events := [] } rfl (by decide) (by decide)

/-- C6: a parameter with no annotation, not required, and default exactly
None is silently excluded by the first exclusion rule: no registration, no
error, no change to the state (hence no contribution to the returned total). -/
theorem claim_C6 (cfg : DeriveCfg) (objName : String) (addArgs addKwargs : Bool) (num : Nat)
    (p : Param) (st : DeriveState) (h1 : p.ann = Ann.empty)
    (h2 : p.default = some PyVal.none) :
    paramDecision cfg.skipFirst addArgs addKwargs cfg.skip num p = ParamDecision.silentSkip
    ∧ processParam cfg objName addArgs addKwargs num p st = Except.ok st := by
  have hdec : paramDecision cfg.skipFirst addArgs addKwargs cfg.skip num p
      = ParamDecision.silentSkip := by
    simp [paramDecision, h1, h2]
  refine ⟨hdec, ?_⟩
  simp only [processParam, hdec]

theorem claim_C6_witness :
    paramDecision false true true [] 0
        { name := "u", kind := ParamKind.positionalOrKeyword, ann := Ann.empty,
          default := some PyVal.none }
      = ParamDecision.silentSkip
    ∧ processParam
        { nestedKey := Option.none, asPositional := false, skip := [], docParams := [],
          skipFirst := false } "F" true true 0
        { name := "u", kind := ParamKind.positionalOrKeyword, ann := Ann.empty,
          default := some PyVal.none }
        { added := [], events := [] }
      = Except.ok { added := [], events := [] } :=
  claim_C6
    { nestedKey := Option.none, asPositional := false, skip := [], docParams := [],
      skipFirst := false } "F" true true 0
    { name := "u", kind := ParamKind.positionalOrKeyword, ann := Ann.empty,
      default := some PyVal.none }
    { added := [], events := [] } rfl rfl

/-- C2: a surviving required parameter whose effective type is neither a
simple type nor an enumeration and for which the schema-validating action
cannot be constructed raises an invalid-configuration error naming the source
object and the parameter; the same situation for an optional parameter is
only a debug-logged skip; and options registered earlier in the same call
remain registered when the error is raised (no rollback), as the concrete
two-parameter derivation shows. -/
theorem claim_C2 :
    (∀ (cfg : DeriveCfg) (objName : String) (addArgs addKwargs : Bool) (num : Nat) (p : Param)
        (st : DeriveState),
        paramDecision cfg.skipFirst addArgs addKwargs cfg.skip num p = ParamDecision.proceed →
        p.default = Option.none →
        isSimpleType p.ann = false → isEnumAnn p.ann = false → schemaOkAnn p.ann = false →
        processParam cfg objName addArgs addKwargs num p st
          = Except.error (SigError.requiredWithoutType objName p.name))
    ∧ (∀ (cfg : DeriveCfg) (objName : String) (addArgs addKwargs : Bool) (num : Nat) (p : Param)
        (st : DeriveState) (v : PyVal),
        paramDecision cfg.skipFirst addArgs addKwargs cfg.skip num p = ParamDecision.proceed →
        p.default = some v →
        isSimpleType (effectiveAnn p) = false → isEnumAnn (effectiveAnn p) = false →
        schemaOkAnn (effectiveAnn p) = false →
        processParam cfg objName addArgs addKwargs num p st = Except.ok st)
    ∧ add_signature_arguments
        { name := "G",
          params := [{ name := "x", kind := ParamKind.positionalOrKeyword, ann := Ann.int,
                       default := Option.none },
                     { name := "bad", kind := ParamKind.positionalOrKeyword,
                       ann := Ann.other "Weird" false, default := Option.none }], docs := [] }
        [] Option.none false false [] false false
      = ([{ dest := "x", optStr := "--x", typeTag := some Ann.int, action := Option.none,
            default := Option.none, required := true, helpText := Option.none,
            metavar := Option.none, enablePath := false }],
         Except.error (SigError.requiredWithoutType "G" "bad")) := by
  refine ⟨?_, ?_, ?_⟩
  · intro cfg objName aa ak num p st hdec hreq h1 h2 h3
    have ha := effectiveAnn_required p hreq
    simp only [processParam, hdec, dispatchTypeTag, dispatchAction, ha, h1, h2, h3]
    simp [hreq]
  · intro cfg objName aa ak num p st v hdec hv h1 h2 h3
    simp only [processParam, hdec, dispatchTypeTag, dispatchAction, h1, h2, h3]
    simp [hv]
  · rfl

theorem claim_C2_witness :
    processParam
        { nestedKey := Option.none, asPositional := false, skip := [], docParams := [],
          skipFirst := false } "G" true true 1
        { name := "bad", kind := ParamKind.positionalOrKeyword, ann := Ann.other "Weird" false,
          default := Option.none }
        { added := [], events := [] }
      = Except.error (SigError.requiredWithoutType "G" "bad") :=
  claim_C2.1
    { nestedKey := Option.none, asPositional := false, skip := [], docParams := [],
      skipFirst := false } "G" true true 1
    { name := "bad", kind := ParamKind.positionalOrKeyword, ann := Ann.other "Weird" false,
      default := Option.none }
    { added := [], events := [] } (by decide) rfl rfl rfl rfl

/-- C3: per derivation call the `added_args` set is exactly the list of
destination keys of the registered options and has no duplicates (at most one
option per destination key); on success the returned count is exactly the
number of registered options (= distinct destination keys); and a parameter
whose destination key is already registered is skipped without changing the
state, so the earliest (most-derived) occurrence wins. -/
theorem claim_C3 (first : ChainElem) (rest : List ChainElem) (nestedKey : Option String)
    (asPositional : Bool) (skip : List String) (docSupport : Bool) (skipFirst : Bool) :
    (sigState first rest nestedKey asPositional skip docSupport skipFirst).1.added
      = ((sigState first rest nestedKey asPositional skip docSupport skipFirst).1.events.map
          AddedArg.dest)
    ∧ (sigState first rest nestedKey asPositional skip docSupport skipFirst).1.added.Nodup
    ∧ (∀ (asGroup : Bool) (n : Nat),
        (add_signature_arguments first rest nestedKey asGroup asPositional skip docSupport
            skipFirst).2 = Except.ok n →
        n = (sigState first rest nestedKey asPositional skip docSupport
              skipFirst).1.events.length)
    ∧ ∀ (cfg : DeriveCfg) (objName : String) (addArgs addKwargs : Bool) (num : Nat) (p : Param)
        (st : DeriveState),
        paramDest cfg.nestedKey p.name ∈ st.added →
        ((dispatchTypeTag (effectiveAnn p)).isSome || (dispatchAction (effectiveAnn p)).isSome)
          = true →
        processParam cfg objName addArgs addKwargs num p st = Except.ok st := by
  have hinv := sigState_inv first rest nestedKey asPositional skip docSupport skipFirst
  refine ⟨hinv.1, hinv.2, ?_, ?_⟩
  · intro g n hok
    rcases hm : sigState first rest nestedKey asPositional skip docSupport skipFirst with ⟨st, err⟩
    have hinv' := hinv
    rw [hm] at hinv'
    unfold add_signature_arguments at hok
    rw [hm] at hok
    cases err
    · dsimp only at hok ⊢
      have h1 := Except.ok.inj hok
      rw [← h1, hinv'.1, List.length_map]
    · dsimp only at hok
      exact absurd hok (by simp)
  · intro cfg objName aa ak num p st hmem hmap
    unfold processParam
    split
    · simp [hmap, hmem]
    · rfl

theorem claim_C3_witness :
    processParam
        { nestedKey := Option.none, asPositional := false, skip := [], docParams := [],
          skipFirst := false } "G" true true 0
        { name := "x", kind := ParamKind.positionalOrKeyword, ann := Ann.int,
          default := Option.none }
        { added := ["x"], events := [] }
      = Except.ok { added := ["x"], events := [] } :=
  (claim_C3 { name := "A", params := [], docs := [] } [] Option.none false [] false false).2.2.2
    { nestedKey := Option.none, asPositional := false, skip := [], docParams := [],
      skipFirst := false } "G" true true 0
    { name := "x", kind := ParamKind.positionalOrKeyword, ann := Ann.int,
      default := Option.none }
    { added := ["x"], events := [] } (by decide) (by decide)

/-- C4: a surviving parameter whose effective type is an enumeration subtype
and whose destination key is new is registered with the enum-backed choice
action parameterized by exactly that enumeration type (the type put in is the
type discoverable on the registered action). -/
theorem claim_C4 (cfg : DeriveCfg) (objName : String) (addArgs addKwargs : Bool) (num : Nat)
    (p : Param) (st : DeriveState) (E : String)
    (hdec : paramDecision cfg.skipFirst addArgs addKwargs cfg.skip num p = ParamDecision.proceed)
    (hann : effectiveAnn p = Ann.enum E)
    (hnew : paramDest cfg.nestedKey p.name ∉ st.added) :
    processParam cfg objName addArgs addKwargs num p st
      = Except.ok { added := st.added ++ [paramDest cfg.nestedKey p.name],
                    events := st.events ++ [buildEvent cfg p] }
    ∧ (buildEvent cfg p).action = some (ArgAction.actionEnum (Ann.enum E)) := by
  constructor
  · simp only [processParam, hdec, dispatchTypeTag, dispatchAction, hann]
    simp [isSimpleType, isEnumAnn, hnew]
  · simp [buildEvent, dispatchAction, hann, isSimpleType, isEnumAnn]

theorem claim_C4_witness :
    processParam
        { nestedKey := Option.none, asPositional := false, skip := [], docParams := [],
          skipFirst := false } "A" true true 0
        { name := "color", kind := ParamKind.positionalOrKeyword, ann := Ann.enum "Color",
          default := Option.none }
        { added := [], events := [] }
      = Except.ok { added := ["color"],
                    events := [buildEvent
                      { nestedKey := Option.none, asPositional := false, skip := [],
                        docParams := [], skipFirst := false }
                      { name := "color", kind := ParamKind.positionalOrKeyword,
                        ann := Ann.enum "Color", default := Option.none }] }
    ∧ (buildEvent
        { nestedKey := Option.none, asPositional := false, skip := [], docParams := [],
          skipFirst := false }
        { name := "color", kind := ParamKind.positionalOrKeyword, ann := Ann.enum "Color",
          default := Option.none }).action
      = some (ArgAction.actionEnum (Ann.enum "Color")) :=
  claim_C4
    { nestedKey := Option.none, asPositional := false, skip := [], docParams := [],
      skipFirst := false } "A" true true 0
    { name := "color", kind := ParamKind.positionalOrKeyword, ann := Ann.enum "Color",
      default := Option.none }
    { added := [], events := [] } "Color" (by decide) rfl (by simp)

/-- C7: deriving from a subclass base with a nested key registers exactly two
options — the help-probe `--<nested_key>.help` carrying the class-path help
action, and the principal `--<nested_key>` typed by the base class (with
`enable_path`, metavar and the substituted help text) — and no
config-subtree-loading option, because group creation is invoked with
`config_load=False` even though grouping is on. -/
theorem claim_C7 (c : PyClass) (k metavar helpStr : String) (docSupport : Bool) :
    add_subclass_arguments (ClassInput.cls c) k true metavar helpStr docSupport
      = Except.ok
          [{ dest := k ++ ".help", optStr := "--" ++ k ++ ".help",
             typeTag := Option.none, action := some (ArgAction.actionHelpClassPath c.name),
             default := Option.none, required := false, helpText := Option.none,
             metavar := Option.none, enablePath := false },
           { dest := k, optStr := "--" ++ k, typeTag := some c.ann, action := Option.none,
             default := Option.none, required := false,
             helpText := some (substBaseclassName helpStr c.name),
             metavar := some metavar, enablePath := true }] := by rfl

/-- C8: each entry point validates its principal argument before any
registration: a non-class given to derive-from-class, a non-class or a
missing/non-callable member given to derive-from-method, and a non-callable
given to derive-from-function each raise the invalid-argument error with no
options registered by that call. -/
theorem claim_C8 :
    (∀ (tag : String) (nestedKey : Option String) (asGroup asPositional : Bool)
        (skip : List String) (docSupport : Bool),
        add_class_arguments (ClassInput.nonClass tag) nestedKey asGroup asPositional skip
            docSupport
          = ([], Except.error SigError.notAClass))
    ∧ (∀ (tag themethod : String) (nestedKey : Option String) (asGroup asPositional : Bool)
        (skip : List String) (docSupport : Bool),
        add_method_arguments (ClassInput.nonClass tag) themethod nestedKey asGroup asPositional
            skip docSupport
          = ([], Except.error SigError.notAClass))
    ∧ (∀ (c : PyClass) (themethod : String) (nestedKey : Option String)
        (asGroup asPositional : Bool) (skip : List String) (docSupport : Bool),
        (lookupMember c themethod = Option.none
          ∨ ∃ meth, lookupMember c themethod = some meth ∧ meth.isCallable = false) →
        add_method_arguments (ClassInput.cls c) themethod nestedKey asGroup asPositional skip
            docSupport
          = ([], Except.error SigError.notAMethod))
    ∧ (∀ (tag : String) (nestedKey : Option String) (asGroup asPositional : Bool)
        (skip : List String) (docSupport : Bool),
        add_function_arguments (FuncInput.notCallable tag) nestedKey asGroup asPositional skip
            docSupport
          = ([], Except.error SigError.notCallable)) := by
  refine ⟨fun _ _ _ _ _ _ => rfl, fun _ _ _ _ _ _ _ => rfl, ?_, fun _ _ _ _ _ _ => rfl⟩
  intro c m nk g pos skip ds h
  rcases h with h | ⟨meth, hm, hc⟩
  · simp [add_method_arguments, h]
  · simp [add_method_arguments, hm, hc]

theorem claim_C8_witness :
    add_method_arguments
        (ClassInput.cls { name := "C", selfElem := { name := "C", params := [], docs := [] },
                          ancestors := [], members := [], ann := Ann.other "C" true })
        "missing" Option.none true false [] false
      = ([], Except.error SigError.notAMethod) :=
  claim_C8.2.2.1
    { name := "C", selfElem := { name := "C", params := [], docs := [] }, ancestors := [],
      members := [], ann := Ann.other "C" true }
    "missing" Option.none true false [] false (Or.inl rfl)

/-- C9: when grouping is requested with a nested key, the
config-subtree-loading option for that key is registered during group
creation — it is the first registration event of the call, present even when
zero signature-derived options are registered — and it is never included in
the returned count: on success the total number of events is the returned
count plus one. -/
theorem claim_C9 (first : ChainElem) (rest : List ChainElem) (k : String) (asPositional : Bool)
    (skip : List String) (docSupport : Bool) (skipFirst : Bool) :
    (add_signature_arguments first rest (some k) true asPositional skip docSupport
        skipFirst).1.head?
      = some { dest := k, optStr := "--" ++ k, typeTag := Option.none,
               action := some ArgAction.actionConfigLoad, default := Option.none,
               required := false, helpText := Option.none, metavar := Option.none,
               enablePath := false }
    ∧ ∀ n : Nat,
        (add_signature_arguments first rest (some k) true asPositional skip docSupport
            skipFirst).2 = Except.ok n →
        (add_signature_arguments first rest (some k) true asPositional skip docSupport
            skipFirst).1.length = n + 1 := by
  have hinv := sigState_inv first rest (some k) asPositional skip docSupport skipFirst
  rcases hm : sigState first rest (some k) asPositional skip docSupport skipFirst with ⟨st, err⟩
  rw [hm] at hinv
  constructor
  · unfold add_signature_arguments
    rw [hm]
    cases err
    · rfl
    · rfl
  · intro n hok
    unfold add_signature_arguments at hok ⊢
    rw [hm] at hok ⊢
    cases err
    · dsimp only at hok ⊢
      have h1 := Except.ok.inj hok
      have h2 : st.added.length = st.events.length := by
        rw [hinv.1, List.length_map]
      simp [create_group_if_requested]
      omega
    · dsimp only at hok
      exact absurd hok (by simp)

theorem claim_C9_witness :
    (add_signature_arguments { name := "A", params := [], docs := [] } [] (some "model") true
        false [] false false).1.head?
      = some { dest := "model", optStr := "--model", typeTag := Option.none,
               action := some ArgAction.actionConfigLoad, default := Option.none,
               required := false, helpText := Option.none, metavar := Option.none,
               enablePath := false }
    ∧ (add_signature_arguments { name := "A", params := [], docs := [] } [] (some "model") true
        false [] false false).1.length = 0 + 1 :=
  ⟨(claim_C9 { name := "A", params := [], docs := [] } [] "model" false [] false false).1,
   (claim_C9 { name := "A", params := [], docs := [] } [] "model" false [] false false).2 0 rfl⟩
